import Mathlib

/-!
Verification of the rotor tracking control loop of gpredict
(`src/gtk-rot-ctrl.c`).

Angles, times and thresholds are modelled as rationals: the C code only ever
adds, subtracts, halves and compares these quantities, so every computation it
performs is exact on rationals.  C `while` loops are embedded as structurally
recursive functions driven by an explicitly computed fuel that matches the
number of iterations the C loop performs whenever that loop terminates; where
the C loop would diverge (non-positive cycle delay) the theorems carry the
corresponding positivity hypotheses.
-/

set_option linter.unusedVariables false

/-- glib `CLAMP(x, low, high)`: checks the upper bound first, as the macro does. -/
def CLAMP (x low high : ℚ) : ℚ :=
  if x > high then high else if x < low then low else x

/-- `gtk_rot_ctrl_ring_absdiff` (gtk-rot-ctrl.c lines 935-943): absolute value of
the difference, reflected through 360 when above 180.  The `diff < -180` branch
of the source is kept although it can never fire after the absolute value. -/
def gtk_rot_ctrl_ring_absdiff (a b : ℚ) : ℚ :=
  let diff := |a - b|
  let diff := if diff > 180 then |diff - 360| else diff
  let diff := if diff < -180 then |diff + 360| else diff
  diff

/-- `is_within_threshold` (lines 956-961): sum-of-squares comparison of the two
per-axis ring distances against the squared threshold. -/
def is_within_threshold (srcaz srcel dstaz dstel threshold : ℚ) : Bool :=
  let diffaz := gtk_rot_ctrl_ring_absdiff srcaz dstaz
  let diffel := gtk_rot_ctrl_ring_absdiff srcel dstel
  decide (diffaz * diffaz + diffel * diffel < threshold * threshold)

/-- `gtk_rot_ctrl_smooth` (lines 894-908): due-north smoothing of `currAz`
against `lastAz`; both conditions test the original `currAz`, as in the source. -/
def gtk_rot_ctrl_smooth (lastAz currAz : ℚ) : ℚ :=
  let res := currAz
  let res := if lastAz + 170 < currAz then res - 360 else res
  let res := if lastAz - 170 > currAz then res + 360 else res
  res

/-- Body of the C loop `while (az > hi) az -= 360;`, driven by fuel. -/
def subTurnsAux : Nat → ℚ → ℚ → ℚ
  | 0, _, az => az
  | n + 1, hi, az => if az > hi then subTurnsAux n hi (az - 360) else az

/-- Number of iterations `while (az > hi) az -= 360;` performs. -/
def subTurnsFuel (hi az : ℚ) : Nat := (⌈(az - hi) / 360⌉).toNat

/-- The C loop `while (az > hi) az -= 360;`. -/
def subTurnsWhileGt (hi az : ℚ) : ℚ := subTurnsAux (subTurnsFuel hi az) hi az

/-- Body of the C loop `while (az < lo) az += 360;`, driven by fuel. -/
def addTurnsAux : Nat → ℚ → ℚ → ℚ
  | 0, _, az => az
  | n + 1, lo, az => if az < lo then addTurnsAux n lo (az + 360) else az

/-- Number of iterations `while (az < lo) az += 360;` performs. -/
def addTurnsFuel (lo az : ℚ) : Nat := (⌈(lo - az) / 360⌉).toNat

/-- The C loop `while (az < lo) az += 360;`. -/
def addTurnsWhileLt (lo az : ℚ) : ℚ := addTurnsAux (addTurnsFuel lo az) lo az

/-- `gtk_rot_ctrl_make_pos` (lines 832-839): `while (angle < 0) angle += 360;`. -/
def gtk_rot_ctrl_make_pos (angle : ℚ) : ℚ := addTurnsWhileLt 0 angle

/-- The azimuth wrap convention `rot_az_type_t` of the rotator configuration. -/
inductive RotAzType
  | raw
  | az360
  | az180
deriving DecidableEq, Repr

/-- `gtk_rot_ctrl_prep_dsp` (lines 756-777): display-only projection of the
azimuth, first raising it while below the range, then lowering it while above. -/
def gtk_rot_ctrl_prep_dsp (srcaz srcel : ℚ) (dspType : RotAzType) : ℚ × ℚ :=
  match dspType with
  | .raw => (srcaz, srcel)
  | .az360 => (subTurnsWhileGt 360 (addTurnsWhileLt 0 srcaz), srcel)
  | .az180 => (subTurnsWhileGt 180 (addTurnsWhileLt (-180) srcaz), srcel)

/-- One entry of `pass->details` (`pass_detail_t`); only the azimuth is read by
the control loop. -/
structure PassDetail where
  az : ℚ
deriving DecidableEq, Repr

/-- The predicted pass `pass_t` as used by the control loop: AOS/LOS times,
AOS/LOS azimuths and the ordered detail samples. -/
structure Pass where
  aos : ℚ
  los : ℚ
  aos_az : ℚ
  los_az : ℚ
  details : List PassDetail
deriving DecidableEq, Repr

/-- The rotator configuration fields (`rotor_conf_t`) read by the control loop. -/
structure RotorConf where
  minaz : ℚ
  maxaz : ℚ
  minel : ℚ
  maxel : ℚ
  aztype : RotAzType
  azstoppos : ℚ
deriving DecidableEq, Repr

/-- The target satellite fields (`sat_t`) read by the control loop. -/
structure Sat where
  az : ℚ
  el : ℚ
  aos : ℚ
  los : ℚ
deriving DecidableEq, Repr

/-- The mutex-guarded shared record between the control tick and the rotctld
client thread (the `client` member of `GtkRotCtrl`). -/
structure ClientShared where
  azi_out : ℚ
  ele_out : ℚ
  azi_in : ℚ
  ele_in : ℚ
  new_trg : Bool
  io_error : Bool
deriving DecidableEq, Repr

/-- The `GtkRotCtrl` state read and written by `rot_ctrl_timeout_cb` and its
helpers.  `targetSet`/`confSet` model the NULL-ness of the `target` and `conf`
pointers (the `target`/`conf` fields are only meaningful when the flag is set;
the C code never dereferences them when the flag is clear on the paths modelled
here).  `knobAz`/`knobEl` are the values stored in the `AzSet`/`ElSet` knobs. -/
structure RotCtrl where
  target : Sat
  targetSet : Bool
  pass : Option Pass
  conf : RotorConf
  confSet : Bool
  t : ℚ
  delay : ℚ
  threshold : ℚ
  tracking : Bool
  engaged : Bool
  monitor : Bool
  flipped : Bool
  lastTrgAz : ℚ
  lastTrgEl : ℚ
  lastTrgSet : Bool
  knobAz : ℚ
  knobEl : ℚ
  client : ClientShared
deriving DecidableEq, Repr

/-- Seconds per day (`secday`), used to convert the millisecond cycle delay. -/
def secday : ℚ := 86400

/-- The wrap range `[min_az, max_az]` selected by `is_flipped_pass`
(lines 216-226): `[0,360]` for 0-360 mode, `[-180,180]` for ±180 mode, and the
degenerate `[0,0]` for any other type (the locals are initialised to 0). -/
def azLimits : RotAzType → ℚ × ℚ
  | .az360 => (0, 360)
  | .az180 => (-180, 180)
  | .raw => (0, 0)

/-- The lower end of the wrap range after the stop-position offset
`offset = azstoppos - min_az` of lines 234-236. -/
def flipMinAz (ty : RotAzType) (azstoppos : ℚ) : ℚ :=
  (azLimits ty).1 + (azstoppos - (azLimits ty).1)

/-- The upper end of the wrap range after the stop-position offset. -/
def flipMaxAz (ty : RotAzType) (azstoppos : ℚ) : ℚ :=
  (azLimits ty).2 + (azstoppos - (azLimits ty).1)

/-- The unwrap idiom of `is_flipped_pass`: `while (caz > max_az) caz -= 360;`
followed by `while (caz < min_az) caz += 360;`. -/
def unwrapRange (minAz maxAz az : ℚ) : ℚ :=
  addTurnsWhileLt minAz (subTurnsWhileGt maxAz az)

/-- One step of the detail-walk of `is_flipped_pass` (lines 248-263): unwrap the
sample, compare with the previous unwrapped azimuth, accumulate the flag. -/
def flipStep (minAz maxAz : ℚ) (acc : Bool × ℚ) (az : ℚ) : Bool × ℚ :=
  let caz := unwrapRange minAz maxAz az
  (acc.1 || decide (|caz - acc.2| > 180), caz)

/-- `is_flipped_pass` (lines 207-276).  The C loop walks detail indices
`1 .. num-2`, i.e. it skips the first and the last detail sample; the walk is
seeded with the unwrapped AOS azimuth and finished with the unwrapped LOS
azimuth. -/
def is_flipped_pass (pass : Pass) (ty : RotAzType) (azstoppos : ℚ) : Bool :=
  let minAz := flipMinAz ty azstoppos
  let maxAz := flipMaxAz ty azstoppos
  let last0 := unwrapRange minAz maxAz pass.aos_az
  let num := pass.details.length
  let mid := ((pass.details.drop 1).take (num - 2)).map PassDetail.az
  let st :=
    if num > 1 then mid.foldl (flipStep minAz maxAz) (false, last0)
    else (false, last0)
  let caz := unwrapRange minAz maxAz pass.los_az
  st.1 || decide (|caz - st.2| > 180)

/-- The flip transform of `gtk_rot_ctrl_get_path` (lines 877-884) and
`gtk_rot_ctrl_calc_future_target` (lines 1016-1023): elevation becomes
`180 - el`, azimuth is shifted by 180 towards the range. -/
def flipCorrect (az el : ℚ) : ℚ × ℚ :=
  (if az > 180 then az - 180 else az + 180, 180 - el)

/-- `gtk_rot_ctrl_get_path` (lines 848-886).  `pthaz0`/`pthel0` are the values
the caller's `pthaz`/`pthel` storage holds on entry; when no path point is
found the source still applies the flip transform to that storage, which the
model reproduces. -/
def gtk_rot_ctrl_get_path (ctrl : RotCtrl) (pthaz0 pthel0 : ℚ) : Bool × ℚ × ℚ :=
  let (gotPath, pthaz, pthel) :=
    if ctrl.target.el < 0 then
      match ctrl.pass with
      | some pass =>
        if ctrl.t < pass.aos then (true, pass.aos_az, (0 : ℚ))
        else if ctrl.t > pass.los then (true, pass.los_az, (0 : ℚ))
        else (false, pthaz0, pthel0)
      | none => (false, pthaz0, pthel0)
    else (true, ctrl.target.az, ctrl.target.el)
  if ctrl.flipped ∧ ctrl.conf.maxel ≥ 180 then
    (gotPath, (flipCorrect pthaz pthel).1, (flipCorrect pthaz pthel).2)
  else (gotPath, pthaz, pthel)

/-- `gtk_rot_ctrl_smooth_az` (lines 916-924): smooth against the last commanded
azimuth when one exists. -/
def gtk_rot_ctrl_smooth_az (ctrl : RotCtrl) (currAz : ℚ) : ℚ :=
  if ctrl.lastTrgSet then gtk_rot_ctrl_smooth ctrl.lastTrgAz currAz else currAz

/-- The initial step size of `gtk_rot_ctrl_calc_future_target`
(lines 989-1006): half the time to LOS (or half a 20-minute horizon when no
pass is cached), raised to the full cycle delay `delay/1000/secday` (in days)
when smaller. -/
def init_step (pass : Option Pass) (t delay : ℚ) : ℚ :=
  let step :=
    (match pass with
     | some p => p.los - t
     | none => (1 : ℚ) / 72) / 2
  if step < delay / 1000 / secday then delay / 1000 / secday else step

/-- The loop exit bound of `gtk_rot_ctrl_calc_future_target` (line 1012):
a quarter of the cycle delay, in days. -/
def quarter_delay (delay : ℚ) : ℚ := delay / 1000 / 4 / secday

/-- One propagation of the search: `predict_calc` at the given time followed by
the flip correction of lines 1016-1023 when `doflip` holds. -/
def futurePoint (predict : ℚ → ℚ × ℚ) (doflip : Bool) (time : ℚ) : ℚ × ℚ :=
  let p := predict time
  if doflip then flipCorrect p.1 p.2 else p

/-- The `while (step_size > ...)` loop of `gtk_rot_ctrl_calc_future_target`
(lines 1011-1032), driven by fuel.  The state carries `time_delta`, the current
`step_size`, the working satellite's `az`/`el`, and additionally the outcome of
the most recent acceptance test (`accepted`), which instruments the loop without
altering it.  The fuel passed by `futureSearch` is exactly the number of
iterations the C loop performs whenever the exit bound is positive. -/
def future_loop (predict : ℚ → ℚ × ℚ) (doflip : Bool)
    (pthaz pthel threshold t bound : ℚ) :
    Nat → ℚ → ℚ → ℚ → ℚ → Bool → ℚ × ℚ × ℚ × Bool
  | 0, time_delta, _step, az, el, accepted => (time_delta, az, el, accepted)
  | fuel + 1, time_delta, step, az, el, accepted =>
    if step > bound then
      let p := futurePoint predict doflip (t + time_delta + step)
      let ok := decide (p.2 ≥ 0) && decide (p.2 ≤ 180) &&
        is_within_threshold pthaz pthel p.1 p.2 threshold
      future_loop predict doflip pthaz pthel threshold t bound
        fuel (if ok then time_delta + step else time_delta) (step / 2) p.1 p.2 ok
    else (time_delta, az, el, accepted)

/-- Fuel-driven count of the halvings `step, step/2, …` needed to fall to or
below `bound`. -/
def numHalvingsAux : Nat → ℚ → ℚ → Nat
  | 0, _, _ => 0
  | fuel + 1, step, bound =>
    if step > bound then numHalvingsAux fuel (step / 2) bound + 1 else 0

/-- Number of iterations of the future-target search loop: the number of
halvings from `step` down to `bound`.  The fuel `log2 ⌈step/bound⌉ + 1` is
sufficient whenever `bound > 0` (proved below); when the C loop would diverge
(`bound ≤ 0`) the count is merely some finite number. -/
def numHalvings (step bound : ℚ) : Nat :=
  numHalvingsAux ((⌈step / bound⌉.toNat).log2 + 1) step bound

/-- `gtk_rot_ctrl_calc_future_target` (lines 977-1035) with its full final loop
state exposed: `(time_delta, az, el, accepted)`.  `predict` models the external
propagator `predict_calc`: the satellite's (az, el) as a function of time. -/
def futureSearch (predict : ℚ → ℚ × ℚ) (ctrl : RotCtrl) (pthaz pthel : ℚ) :
    ℚ × ℚ × ℚ × Bool :=
  let step := init_step ctrl.pass ctrl.t ctrl.delay
  let bound := quarter_delay ctrl.delay
  let doflip := ctrl.flipped && decide (ctrl.conf.maxel ≥ 180)
  future_loop predict doflip pthaz pthel ctrl.threshold ctrl.t bound
    (numHalvings step bound) 0 step ctrl.target.az ctrl.target.el false

/-- `gtk_rot_ctrl_calc_future_target`'s observable result: the working
satellite's `az`/`el` after the search loop (written through `trgaz`/`trgel`). -/
def gtk_rot_ctrl_calc_future_target (predict : ℚ → ℚ × ℚ) (ctrl : RotCtrl)
    (pthaz pthel : ℚ) : ℚ × ℚ :=
  let r := futureSearch predict ctrl pthaz pthel
  (r.2.1, r.2.2.1)

/-- The envelope fold of `gtk_rot_ctrl_profile_az` (lines 1063-1081): state
`(minaz, maxaz, lastaz, firstAz)` starting from `(10000, -10000, 0, true)`
(`lastaz` is uninitialised in C but is written before first use). -/
def envStep (st : ℚ × ℚ × ℚ × Bool) (az : ℚ) : ℚ × ℚ × ℚ × Bool :=
  let lastaz := if st.2.2.2 then az else st.2.2.1
  let smoothaz := gtk_rot_ctrl_smooth lastaz az
  (if smoothaz < st.1 then smoothaz else st.1,
   if smoothaz > st.2.1 then smoothaz else st.2.1,
   smoothaz, false)

/-- The shift loop `while (sampleAz < minaz) { minaz -= 360; maxaz -= 360; }`
of lines 1083-1087, driven by fuel. -/
def envShiftDownAux : Nat → ℚ → ℚ × ℚ → ℚ × ℚ
  | 0, _, mm => mm
  | n + 1, sampleAz, (mn, mx) =>
    if sampleAz < mn then envShiftDownAux n sampleAz (mn - 360, mx - 360)
    else (mn, mx)

/-- The shift loop `while (sampleAz > maxaz) { minaz += 360; maxaz += 360; }`
of lines 1088-1092, driven by fuel. -/
def envShiftUpAux : Nat → ℚ → ℚ × ℚ → ℚ × ℚ
  | 0, _, mm => mm
  | n + 1, sampleAz, (mn, mx) =>
    if sampleAz > mx then envShiftUpAux n sampleAz (mn + 360, mx + 360)
    else (mn, mx)

/-- The smooth-unwrapped envelope of the detail samples, shifted by whole turns
towards `sampleAz` exactly as lines 1063-1092 do. -/
def envAfterShift (details : List PassDetail) (sampleAz : ℚ) : ℚ × ℚ :=
  let st := (details.map PassDetail.az).foldl envStep (10000, -10000, 0, true)
  let mm := envShiftDownAux (⌈(st.1 - sampleAz) / 360⌉).toNat sampleAz (st.1, st.2.1)
  envShiftUpAux (⌈(sampleAz - mm.2) / 360⌉).toNat sampleAz mm

/-- One candidate test of the offset loop (lines 1093-1106): a candidate offset
is adopted when the shifted envelope lies strictly inside the configured
azimuth limits and its stretch `max(|low|, |high|)` strictly improves on the
best stretch so far (initially the sentinel 10000). -/
def candStep (cminaz cmaxaz mn mx : ℚ) (acc : ℚ × ℚ) (off : ℚ) : ℚ × ℚ :=
  let low := mn + off
  let high := mx + off
  if low > cminaz ∧ high < cmaxaz then
    let stretch := max |low| |high|
    if stretch < acc.2 then (off, stretch) else acc
  else acc

/-- `gtk_rot_ctrl_profile_az` (lines 1049-1110): profile the cached pass and
choose among the offsets −360, 0, +360; returns 0 when no pass is cached. -/
def gtk_rot_ctrl_profile_az (ctrl : RotCtrl) (sampleAz : ℚ) : ℚ :=
  match ctrl.pass with
  | none => 0
  | some p =>
    let mm := envAfterShift p.details sampleAz
    (([-360, 0, 360] : List ℚ).foldl
      (candStep ctrl.conf.minaz ctrl.conf.maxaz mm.1 mm.2) (0, 10000)).1

/-- The engaged-device block of `rot_ctrl_timeout_cb` (lines 1255-1281):
under a successful non-blocking lock the clamped target is written to the
shared record and the pending flag raised; `SAFE_AZI`/`SAFE_ELE` are
`CLAMP` against the configured azimuth/elevation limits (lines 1131-1132). -/
def tickDevice (engaged gotlock : Bool) (trgaz trgel : ℚ) (c : RotCtrl) :
    RotCtrl :=
  if engaged && gotlock then
    { c with client :=
      { c.client with
        azi_out := CLAMP trgaz c.conf.minaz c.conf.maxaz
        ele_out := CLAMP trgel c.conf.minel c.conf.maxel
        new_trg := true } }
  else c

/-- `rot_ctrl_timeout_cb` (lines 1118-1284) as a state transition.  `predict`
models the external propagator used by the future-target search; `gotlock` is
the outcome of the non-blocking `g_mutex_trylock`.  Display label and polar
plot updates have no bearing on the modelled state and are omitted; the knob
writes of lines 1239-1240 are kept since the knobs are read back when not
tracking. -/
def rot_ctrl_timeout_cb (predict : ℚ → ℚ × ℚ) (gotlock : Bool) (c : RotCtrl) :
    RotCtrl :=
  let tracking := c.tracking && c.targetSet
  let engaged := c.engaged && c.confSet
  if !tracking then
    let pthaz := c.knobAz
    let pthel := c.knobEl
    let trgaz := pthaz
    let trgel := pthel
    let c1 := { c with lastTrgAz := trgaz, lastTrgEl := trgel, lastTrgSet := true }
    tickDevice engaged gotlock trgaz trgel c1
  else
    let r := gtk_rot_ctrl_get_path c 0 0
    if r.1 then
      let pthaz := gtk_rot_ctrl_smooth_az c r.2.1
      let pthel := r.2.2
      let w := if c.lastTrgSet then (c.lastTrgAz, c.lastTrgEl) else (pthaz, pthel)
      let w :=
        if !is_within_threshold pthaz pthel w.1 w.2 c.threshold then
          let q :=
            if c.target.el < 0 then (pthaz, pthel)
            else gtk_rot_ctrl_calc_future_target predict c pthaz pthel
          (gtk_rot_ctrl_smooth_az c q.1, q.2)
        else w
      let c1 := { c with lastTrgAz := w.1, lastTrgEl := w.2, lastTrgSet := true }
      let trgaz := w.1 + gtk_rot_ctrl_profile_az c1 w.1
      let trgel := w.2
      let dsp := gtk_rot_ctrl_prep_dsp trgaz trgel c1.conf.aztype
      let c2 := { c1 with knobAz := dsp.1, knobEl := dsp.2 }
      tickDevice engaged gotlock trgaz trgel c2
    else
      tickDevice engaged gotlock 0 0 c

/-- The client-thread locals of `rotctld_client_thread` (lines 390-455) that
survive across loop iterations: `azi`, `ele`, `new_trg`, `io_error`.  `sent`
records the positions for which `set_pos` reported success — the observable
output of the thread on the socket. -/
structure ClientLocal where
  azi : ℚ
  ele : ℚ
  new_trg : Bool
  io_error : Bool
  sent : List (ℚ × ℚ)
deriving DecidableEq, Repr

/-- Combined state of the control tick and the device-client thread. -/
structure SysState where
  ctrl : RotCtrl
  loc : ClientLocal
deriving DecidableEq, Repr

/-- The atomic steps of the two threads.  The client loop decomposes into its
lock-protected snapshot (lines 416-423, together with the `io_error = FALSE`
reset of line 414), the unlocked `set_pos` exchange (lines 425-431, `ok` being
the outcome reported by the daemon), and the `get_pos` exchange plus
lock-protected publish (lines 434-443; `posok` the outcome of `get_pos`, `pos`
the values it reads).  `ctick` is one run of `rot_ctrl_timeout_cb` with the
given `g_mutex_trylock` outcome. -/
inductive ClientAct
  | ctick (predict : ℚ → ℚ × ℚ) (gotlock : Bool)
  | snap
  | send (ok : Bool)
  | publish (pos : ℚ × ℚ) (posok : Bool)

/-- Small-step semantics of the shared-record protocol. -/
def sysStep (a : ClientAct) (s : SysState) : SysState :=
  match a with
  | .ctick predict gotlock => { s with ctrl := rot_ctrl_timeout_cb predict gotlock s.ctrl }
  | .snap =>
    let loc := { s.loc with io_error := false }
    if s.ctrl.client.new_trg then
      { s with loc :=
        { loc with azi := s.ctrl.client.azi_out, ele := s.ctrl.client.ele_out,
                   new_trg := s.ctrl.client.new_trg } }
    else { s with loc := loc }
  | .send ok =>
    if s.loc.new_trg && !s.ctrl.monitor then
      if ok then
        { s with loc :=
          { s.loc with new_trg := false, sent := s.loc.sent ++ [(s.loc.azi, s.loc.ele)] } }
      else { s with loc := { s.loc with io_error := true } }
    else s
  | .publish pos posok =>
    let loc :=
      if posok then { s.loc with azi := pos.1, ele := pos.2 }
      else { s.loc with io_error := true }
    { s with
      ctrl := { s.ctrl with client :=
        { s.ctrl.client with
          azi_in := loc.azi, ele_in := loc.ele,
          new_trg := loc.new_trg, io_error := loc.io_error } }
      loc := loc }

/-- Run a list of atomic steps from a state. -/
def sysRun (acts : List ClientAct) (s : SysState) : SysState :=
  acts.foldl (fun st a => sysStep a st) s

/-- glib `g_strsplit`: first occurrence of the separator, `none` when absent. -/
def splitFirst (sep : Char) : List Char → Option (List Char × List Char)
  | [] => none
  | c :: cs =>
    if c = sep then some ([], cs)
    else (splitFirst sep cs).map (fun p => (c :: p.1, p.2))

/-- glib `g_strsplit` token walk: `budget` remaining allowed splits
(`max_tokens - 1`); once exhausted the remainder is the final token. -/
def gSplitAux (sep : Char) : Nat → List Char → List (List Char)
  | 0, s => [s]
  | budget + 1, s =>
    match splitFirst sep s with
    | none => [s]
    | some (tok, rest) => tok :: gSplitAux sep budget rest

/-- `g_strsplit(buff, "\n", max_tokens)` as used by `get_pos` (line 324):
an empty string yields an empty vector, as in glib. -/
def g_strsplit_nl (max_tokens : Nat) (s : List Char) : List (List Char) :=
  if s = [] then [] else gSplitAux '\n' (max_tokens - 1) s

/-- Value of an ASCII digit string. -/
def digitsValNat (l : List Char) : ℕ :=
  l.foldl (fun acc c => acc * 10 + (c.toNat - '0'.toNat)) 0

/-- Leading sign of a number string: whether it is negative, and the remainder. -/
def strtodSign (s : List Char) : Bool × List Char :=
  match s with
  | '-' :: r => (true, r)
  | '+' :: r => (false, r)
  | r => (false, r)

/-- Fractional digits of a number string: the digits after a leading point. -/
def strtodFrac (s : List Char) : List Char :=
  match s with
  | '.' :: r => r.takeWhile Char.isDigit
  | _ => []

/-- Model of glib `g_strtod` restricted to plain decimal input: an optional
sign, decimal digits, an optional fractional part.  As with C `strtod`, input
with no leading digits converts to 0; `get_pos` ignores the end pointer, so the
converted value is all that matters.  Exponents, hex floats and leading
whitespace do not occur in rotctld replies and are not modelled. -/
def strtodParts (s : List Char) : Bool × ℕ × ℕ × ℕ :=
  let sg := strtodSign s
  let ipart := sg.2.takeWhile Char.isDigit
  let fpart := strtodFrac (sg.2.drop ipart.length)
  (sg.1, digitsValNat ipart, digitsValNat fpart, fpart.length)

/-- The rational value assembled from the parsed parts of `strtodParts`. -/
def g_strtod (s : List Char) : ℚ :=
  let p := strtodParts s
  (if p.1 then (-1 : ℚ) else 1) * ((p.2.1 : ℚ) + (p.2.2.1 : ℚ) / 10 ^ p.2.2.2)

/-- `get_pos` (lines 294-346).  `transport` is the outcome of the
`rotctld_socket_rw` exchange for `"p\n"`: `none` when the transport fails,
`some reply` with the reply buffer otherwise.  The result is `none` exactly
when the source returns FALSE, and carries the parsed azimuth/elevation
otherwise. -/
def get_pos (transport : Option (List Char)) : Option (ℚ × ℚ) :=
  match transport with
  | none => none
  | some reply =>
    if ("RPRT".data).isPrefixOf reply then none
    else
      match g_strsplit_nl 3 reply with
      | v0 :: v1 :: _ => some (g_strtod v0, g_strtod v1)
      | _ => none

/-- Declarative detector: some two consecutive entries of the list differ by
more than 180. -/
def bigJump : List ℚ → Bool
  | a :: b :: rest => decide (|b - a| > 180) || bigJump (b :: rest)
  | _ => false

/-- The ordered azimuth sequence claim C3 describes: the pass's AOS azimuth,
ALL of its detail samples, and its LOS azimuth. -/
def claimSeq (p : Pass) : List ℚ :=
  p.aos_az :: p.details.map PassDetail.az ++ [p.los_az]

/-- The ordered azimuth sequence `is_flipped_pass` actually walks: the AOS
azimuth, the detail samples with the first and the last skipped
(loop indices `1 .. num-2`), and the LOS azimuth. -/
def codeSeq (p : Pass) : List ℚ :=
  p.aos_az ::
    ((p.details.drop 1).take (p.details.length - 2)).map PassDetail.az ++
    [p.los_az]

/-- Follows the claim's words for C7: a reply field "parses as a floating
value" when strtod actually converts something, i.e. an optional sign followed
by at least one decimal digit, or a decimal point followed by at least one
digit.  Used only to state the claim; the source never performs this check. -/
def parses_as_float (s : List Char) : Bool :=
  let rest :=
    match s with
    | '-' :: r => r
    | '+' :: r => r
    | r => r
  !(rest.takeWhile Char.isDigit).isEmpty ||
    (match rest.drop (rest.takeWhile Char.isDigit).length with
     | '.' :: r => !(r.takeWhile Char.isDigit).isEmpty
     | _ => false)

/-- A pass whose middle detail sample azimuth 190 makes the claim's full
sequence `[0, 190, 0, 10]` jump by more than 180 twice, while the code's walk
(which skips the first and last detail sample) sees only `[0, 10]`. -/
def passC3 : Pass :=
  { aos := 10, los := 20, aos_az := 0, los_az := 10
    details := [⟨190⟩, ⟨0⟩] }

/-- A propagator whose elevation is constantly 45 and whose azimuth jumps to
180 for all strictly future times: every probed future point is 180° away from
the supplied path point, so no bisection test ever accepts. -/
def predictC1 : ℚ → ℚ × ℚ :=
  fun d => (if d ≤ 0 then (0 : ℚ) else 180, 45)

/-- Controller state for the C1 counterexample: tracking an above-horizon
target at (az 0, el 45) at time 0, cycle delay 1000 ms, threshold 5°, no flip;
the cached pass ends at the current time so the search step starts at the full
cycle delay and the loop runs exactly two iterations. -/
def ctrlC1 : RotCtrl :=
  { target := { az := 0, el := 45, aos := 0, los := 0 }
    targetSet := true
    pass := some { aos := 0, los := 0, aos_az := 0, los_az := 0, details := [] }
    conf := { minaz := 0, maxaz := 360, minel := 0, maxel := 90,
              aztype := .az360, azstoppos := 0 }
    confSet := true
    t := 0, delay := 1000, threshold := 5
    tracking := true, engaged := false, monitor := false, flipped := false
    lastTrgAz := 0, lastTrgEl := 0, lastTrgSet := false
    knobAz := 0, knobEl := 0
    client := { azi_out := 0, ele_out := 0, azi_in := 0, ele_in := 0,
                new_trg := false, io_error := false } }

/-- Controller state for the C4 counterexample: a cached pass with detail
azimuths 10 and 20 and very wide azimuth limits.  Profiling it at sample
azimuth 10805 shifts the envelope to [10810, 10820]; the −360 candidate lies
inside the limits with the smallest stretch (10460), but every stretch exceeds
the 10000 sentinel, so the code keeps offset 0. -/
def ctrlC4 : RotCtrl :=
  { target := { az := 0, el := 45, aos := 0, los := 0 }
    targetSet := true
    pass := some { aos := 0, los := 1, aos_az := 10, los_az := 20,
                   details := [⟨10⟩, ⟨20⟩] }
    conf := { minaz := -100000, maxaz := 100000, minel := 0, maxel := 90,
              aztype := .az360, azstoppos := 0 }
    confSet := true
    t := 0, delay := 1000, threshold := 5
    tracking := true, engaged := false, monitor := false, flipped := false
    lastTrgAz := 0, lastTrgEl := 0, lastTrgSet := false
    knobAz := 0, knobEl := 0
    client := { azi_out := 0, ele_out := 0, azi_in := 0, ele_in := 0,
                new_trg := false, io_error := false } }

/-- The pass used by the C6 counterexample: LOS equal to the current time, so
the raw half-horizon is 0 and the minimum-step clamp decides the start step. -/
def passC6 : Pass :=
  { aos := 0, los := 0, aos_az := 0, los_az := 0, details := [] }

/-- Initial system state for the C9 counterexample: engaged, not tracking
(the knobs command azimuth 10, elevation 20), monitor off, empty shared
record, idle client locals. -/
def sysC9 : SysState :=
  { ctrl :=
    { target := { az := 0, el := 0, aos := 0, los := 0 }
      targetSet := false
      pass := none
      conf := { minaz := 0, maxaz := 360, minel := 0, maxel := 90,
                aztype := .az360, azstoppos := 0 }
      confSet := true
      t := 0, delay := 1000, threshold := 5
      tracking := false, engaged := true, monitor := false, flipped := false
      lastTrgAz := 0, lastTrgEl := 0, lastTrgSet := false
      knobAz := 10, knobEl := 20
      client := { azi_out := 0, ele_out := 0, azi_in := 0, ele_in := 0,
                  new_trg := false, io_error := false } }
    loc := { azi := 0, ele := 0, new_trg := false, io_error := false, sent := [] } }

/-- The interleaving of the C9 counterexample, up to the point where a fresh
target has just been queued: the controller queues a target, the client
snapshots and successfully sends it, and the controller queues again while the
client is still inside its exchange. -/
def sysC9queued : SysState :=
  sysRun
    [ClientAct.ctick (fun _ => (0, 0)) true, ClientAct.snap, ClientAct.send true,
     ClientAct.ctick (fun _ => (0, 0)) true]
    sysC9

/-- The C9 counterexample's final state: the client publishes back, clobbering
the pending flag of the target queued during its exchange. -/
def sysC9final : SysState :=
  sysStep (ClientAct.publish (0, 0) true) sysC9queued

/-- A candidate offset passes when the shifted envelope lies strictly inside
the configured azimuth limits (the condition of line 1097). -/
def candPasses (cminaz cmaxaz mn mx off : ℚ) : Prop :=
  mn + off > cminaz ∧ mx + off < cmaxaz

/-- The stretch `fmax(fabs(low), fabs(high))` of a candidate (line 1099). -/
def candStretch (mn mx off : ℚ) : ℚ := max |mn + off| |mx + off|

/-- Witness state for the threshold-gating idempotence claim: tracking an
above-horizon target at (0, 45) with the last commanded target already at
(0, 45). -/
def ctrlW5 : RotCtrl :=
  { target := { az := 0, el := 45, aos := 0, los := 10 }
    targetSet := true
    pass := some { aos := 0, los := 10, aos_az := 0, los_az := 0, details := [] }
    conf := { minaz := 0, maxaz := 360, minel := 0, maxel := 90,
              aztype := .az360, azstoppos := 0 }
    confSet := true
    t := 1, delay := 1000, threshold := 5
    tracking := true, engaged := false, monitor := false, flipped := false
    lastTrgAz := 0, lastTrgEl := 45, lastTrgSet := true
    knobAz := 0, knobEl := 0
    client := { azi_out := 0, ele_out := 0, azi_in := 0, ele_in := 0,
                new_trg := false, io_error := false } }

/-- Witness state for the path-profiler claim: a pass with detail azimuths 10
and 20 and limits under which the offset-0 candidate is selectable. -/
def ctrlW4 : RotCtrl :=
  { ctrlW5 with
    pass := some { aos := 0, los := 10, aos_az := 10, los_az := 20,
                   details := [⟨10⟩, ⟨20⟩] }
    conf := { minaz := -180, maxaz := 540, minel := 0, maxel := 90,
              aztype := .az360, azstoppos := 0 } }

/-- A propagator pinned to the witness path point (10, 45): every bisection
test of the future-target search accepts. -/
def predictW1 : ℚ → ℚ × ℚ := fun _ => (10, 45)

theorem ceil_as_floor (a : ℚ) : ⌈a⌉ = -⌊-a⌋ := by
  rw [Int.floor_neg, neg_neg]

theorem ring_absdiff_eq (a b : ℚ) :
    gtk_rot_ctrl_ring_absdiff a b =
      if |a - b| > 180 then |(|a - b| - 360)| else |a - b| := by
  unfold gtk_rot_ctrl_ring_absdiff
  by_cases h : |a - b| > 180
  · simp only [if_pos h]
    rw [if_neg]
    linarith [abs_nonneg (|a - b| - 360)]
  · simp only [if_neg h]
    rw [if_neg]
    linarith [abs_nonneg (a - b)]

/-- C8 (amended): `gtk_rot_ctrl_ring_absdiff` is symmetric and nonnegative for
all arguments, is computed as `|a-b|` reflected through 360 when that exceeds
180, equals 20 at (10, 350), and its result lies in [0, 180] whenever
`|a-b| ≤ 540` (in particular for azimuths in `[0, 360)`); for larger
separations the result can exceed 180, so the unrestricted range claim is
amended with the `|a-b| ≤ 540` guard. -/
theorem ring_absdiff_props (a b : ℚ) :
    gtk_rot_ctrl_ring_absdiff a b = gtk_rot_ctrl_ring_absdiff b a ∧
    0 ≤ gtk_rot_ctrl_ring_absdiff a b ∧
    (|a - b| ≤ 540 → gtk_rot_ctrl_ring_absdiff a b ≤ 180) ∧
    (|a - b| > 180 → gtk_rot_ctrl_ring_absdiff a b = |(|a - b| - 360)|) ∧
    (|a - b| ≤ 180 → gtk_rot_ctrl_ring_absdiff a b = |a - b|) ∧
    gtk_rot_ctrl_ring_absdiff 10 350 = 20 := by
  refine ⟨?_, ?_, ?_, ?_, ?_, ?_⟩
  · rw [ring_absdiff_eq, ring_absdiff_eq, abs_sub_comm a b]
  · rw [ring_absdiff_eq]; split_ifs <;> positivity
  · intro h
    rw [ring_absdiff_eq]
    split_ifs with h1
    · rw [abs_le]; constructor <;> [linarith [abs_nonneg (a - b)]; linarith]
    · linarith
  · intro h; rw [ring_absdiff_eq, if_pos h]
  · intro h; rw [ring_absdiff_eq, if_neg (by linarith)]
  · rw [ring_absdiff_eq]; norm_num

/-- C8 witness: the amended theorem applied at (10, 350). -/
theorem ring_absdiff_props_witness :
    gtk_rot_ctrl_ring_absdiff 10 350 = gtk_rot_ctrl_ring_absdiff 350 10 ∧
    |(10 : ℚ) - 350| ≤ 540 ∧ gtk_rot_ctrl_ring_absdiff 10 350 ≤ 180 :=
  ⟨(ring_absdiff_props 10 350).1, by norm_num,
    (ring_absdiff_props 10 350).2.2.1 (by norm_num)⟩

/-- C8 counterexample: at a = 0, b = 720 the function returns 360, outside the
[0, 180] range the claim asserts for all angles. -/
theorem ring_absdiff_range_cex :
    gtk_rot_ctrl_ring_absdiff 0 720 = 360 ∧
    ¬gtk_rot_ctrl_ring_absdiff 0 720 ≤ 180 := by
  constructor <;> norm_num [gtk_rot_ctrl_ring_absdiff]

/-- C10: `gtk_rot_ctrl_get_path` reports no path point exactly when the
target's elevation is negative and either no pass is cached or `t` lies within
`[aos, los]`; in every other case it reports a point: the satellite position
when the elevation is non-negative, the pass's AOS (resp. LOS) azimuth at 0°
elevation before AOS (resp. after LOS), with the flip transform applied when
`flipped` and `maxel ≥ 180`.  In the no-point case the caller's storage only
receives the flip transform of its initial values, never a path value. -/
theorem gtk_rot_ctrl_get_path_spec (ctrl : RotCtrl) (pthaz0 pthel0 : ℚ) :
    ((gtk_rot_ctrl_get_path ctrl pthaz0 pthel0).1 = false ↔
      (ctrl.target.el < 0 ∧ (ctrl.pass = none ∨
        ∃ p, ctrl.pass = some p ∧ p.aos ≤ ctrl.t ∧ ctrl.t ≤ p.los))) ∧
    (0 ≤ ctrl.target.el →
      (gtk_rot_ctrl_get_path ctrl pthaz0 pthel0).2 =
        if ctrl.flipped ∧ ctrl.conf.maxel ≥ 180 then
          flipCorrect ctrl.target.az ctrl.target.el
        else (ctrl.target.az, ctrl.target.el)) ∧
    (∀ p, ctrl.pass = some p → ctrl.target.el < 0 → ctrl.t < p.aos →
      (gtk_rot_ctrl_get_path ctrl pthaz0 pthel0).2 =
        if ctrl.flipped ∧ ctrl.conf.maxel ≥ 180 then flipCorrect p.aos_az 0
        else (p.aos_az, 0)) ∧
    (∀ p, ctrl.pass = some p → ctrl.target.el < 0 → p.aos ≤ ctrl.t →
        ctrl.t > p.los →
      (gtk_rot_ctrl_get_path ctrl pthaz0 pthel0).2 =
        if ctrl.flipped ∧ ctrl.conf.maxel ≥ 180 then flipCorrect p.los_az 0
        else (p.los_az, 0)) ∧
    ((gtk_rot_ctrl_get_path ctrl pthaz0 pthel0).1 = false →
      (gtk_rot_ctrl_get_path ctrl pthaz0 pthel0).2 =
        if ctrl.flipped ∧ ctrl.conf.maxel ≥ 180 then flipCorrect pthaz0 pthel0
        else (pthaz0, pthel0)) := by
  unfold gtk_rot_ctrl_get_path
  rcases hpass : ctrl.pass with _ | p <;>
    by_cases hel : ctrl.target.el < 0 <;>
      by_cases hflip : ctrl.flipped ∧ ctrl.conf.maxel ≥ 180 <;>
        simp [hpass, hel, hflip, not_lt] <;>
          split_ifs with h1 h2 <;>
            simp_all

/-- C10 witness: the characterization applied to the concrete above-horizon
state `ctrlC1`. -/
theorem gtk_rot_ctrl_get_path_spec_witness :
    0 ≤ ctrlC1.target.el ∧
    (gtk_rot_ctrl_get_path ctrlC1 0 0).2 =
      if ctrlC1.flipped ∧ ctrlC1.conf.maxel ≥ 180 then
        flipCorrect ctrlC1.target.az ctrlC1.target.el
      else (ctrlC1.target.az, ctrlC1.target.el) :=
  ⟨by norm_num [ctrlC1],
    (gtk_rot_ctrl_get_path_spec ctrlC1 0 0).2.1 (by norm_num [ctrlC1])⟩

theorem CLAMP_mem (x lo hi : ℚ) (h : lo ≤ hi) :
    lo ≤ CLAMP x lo hi ∧ CLAMP x lo hi ≤ hi := by
  unfold CLAMP
  split_ifs <;> constructor <;> linarith

theorem rot_ctrl_timeout_cb_shape (predict : ℚ → ℚ × ℚ) (gotlock : Bool)
    (c : RotCtrl) :
    ∃ a e c1, rot_ctrl_timeout_cb predict gotlock c =
        tickDevice (c.engaged && c.confSet) gotlock a e c1 ∧
      c1.client = c.client ∧ c1.conf = c.conf := by
  unfold rot_ctrl_timeout_cb
  by_cases ht : (c.tracking && c.targetSet) = true <;> simp only [ht]
  · by_cases hr : (gtk_rot_ctrl_get_path c 0 0).1 = true <;>
      simp only [hr, Bool.not_true, Bool.false_eq_true, if_false, if_true,
        Bool.true_eq_false]
    · exact ⟨_, _, _, rfl, rfl, rfl⟩
    · exact ⟨_, _, _, rfl, rfl, rfl⟩
  · exact ⟨_, _, _, rfl, rfl, rfl⟩

/-- C2: on every engaged control tick that acquires the shared-record lock the
commanded azimuth written to `client.azi_out` lies within
`[conf.minaz, conf.maxaz]` and the commanded elevation written to
`client.ele_out` lies within `[conf.minel, conf.maxel]`; when the tick is not
engaged or fails to acquire the lock, the shared record is untouched, so no
value outside the configured limits is ever written to it. -/
theorem tick_writes_clamped (predict : ℚ → ℚ × ℚ) (gotlock : Bool) (c : RotCtrl)
    (haz : c.conf.minaz ≤ c.conf.maxaz) (hel : c.conf.minel ≤ c.conf.maxel) :
    (c.engaged = true → c.confSet = true → gotlock = true →
      c.conf.minaz ≤ (rot_ctrl_timeout_cb predict gotlock c).client.azi_out ∧
      (rot_ctrl_timeout_cb predict gotlock c).client.azi_out ≤ c.conf.maxaz ∧
      c.conf.minel ≤ (rot_ctrl_timeout_cb predict gotlock c).client.ele_out ∧
      (rot_ctrl_timeout_cb predict gotlock c).client.ele_out ≤ c.conf.maxel) ∧
    (¬(c.engaged = true ∧ c.confSet = true ∧ gotlock = true) →
      (rot_ctrl_timeout_cb predict gotlock c).client = c.client) := by
  obtain ⟨a, e, c1, heq, hclient, hconf⟩ :=
    rot_ctrl_timeout_cb_shape predict gotlock c
  rw [heq]
  unfold tickDevice
  constructor
  · intro h1 h2 h3
    rw [h1, h2, h3]
    simp only [Bool.and_self, if_true, hconf]
    exact ⟨(CLAMP_mem a _ _ haz).1, (CLAMP_mem a _ _ haz).2,
      (CLAMP_mem e _ _ hel).1, (CLAMP_mem e _ _ hel).2⟩
  · intro h
    have : (c.engaged && c.confSet && gotlock) = false := by
      rcases hc1 : c.engaged <;> rcases hc2 : c.confSet <;> rcases hc3 : gotlock <;>
        simp_all
    rw [this]
    simpa using hclient

/-- C2 witness: the clamping theorem applied to the engaged state of `sysC9`
with the lock acquired. -/
theorem tick_writes_clamped_witness :
    sysC9.ctrl.conf.minaz ≤ sysC9.ctrl.conf.maxaz ∧
    sysC9.ctrl.conf.minel ≤ sysC9.ctrl.conf.maxel ∧
    (sysC9.ctrl.conf.minaz ≤
        (rot_ctrl_timeout_cb predictW1 true sysC9.ctrl).client.azi_out ∧
      (rot_ctrl_timeout_cb predictW1 true sysC9.ctrl).client.azi_out ≤
        sysC9.ctrl.conf.maxaz ∧
      sysC9.ctrl.conf.minel ≤
        (rot_ctrl_timeout_cb predictW1 true sysC9.ctrl).client.ele_out ∧
      (rot_ctrl_timeout_cb predictW1 true sysC9.ctrl).client.ele_out ≤
        sysC9.ctrl.conf.maxel) :=
  ⟨by norm_num [sysC9], by norm_num [sysC9],
    (tick_writes_clamped predictW1 true sysC9.ctrl (by norm_num [sysC9])
      (by norm_num [sysC9])).1 rfl rfl rfl⟩

theorem tickDevice_fields (engaged gotlock : Bool) (a e : ℚ) (c : RotCtrl) :
    (tickDevice engaged gotlock a e c).target = c.target ∧
    (tickDevice engaged gotlock a e c).targetSet = c.targetSet ∧
    (tickDevice engaged gotlock a e c).pass = c.pass ∧
    (tickDevice engaged gotlock a e c).conf = c.conf ∧
    (tickDevice engaged gotlock a e c).t = c.t ∧
    (tickDevice engaged gotlock a e c).flipped = c.flipped ∧
    (tickDevice engaged gotlock a e c).tracking = c.tracking ∧
    (tickDevice engaged gotlock a e c).threshold = c.threshold ∧
    (tickDevice engaged gotlock a e c).lastTrgAz = c.lastTrgAz ∧
    (tickDevice engaged gotlock a e c).lastTrgEl = c.lastTrgEl ∧
    (tickDevice engaged gotlock a e c).lastTrgSet = c.lastTrgSet := by
  unfold tickDevice
  split_ifs <;> simp

theorem tick_preserves (predict : ℚ → ℚ × ℚ) (gotlock : Bool) (c : RotCtrl) :
    (rot_ctrl_timeout_cb predict gotlock c).target = c.target ∧
    (rot_ctrl_timeout_cb predict gotlock c).targetSet = c.targetSet ∧
    (rot_ctrl_timeout_cb predict gotlock c).pass = c.pass ∧
    (rot_ctrl_timeout_cb predict gotlock c).conf = c.conf ∧
    (rot_ctrl_timeout_cb predict gotlock c).t = c.t ∧
    (rot_ctrl_timeout_cb predict gotlock c).flipped = c.flipped ∧
    (rot_ctrl_timeout_cb predict gotlock c).tracking = c.tracking ∧
    (rot_ctrl_timeout_cb predict gotlock c).threshold = c.threshold := by
  unfold rot_ctrl_timeout_cb
  by_cases ht : (c.tracking && c.targetSet) = true <;> simp only [ht] <;>
    by_cases hr : (gtk_rot_ctrl_get_path c 0 0).1 = true <;>
      simp only [hr, Bool.not_true, Bool.false_eq_true, if_false, if_true,
        Bool.true_eq_false] <;>
        simp [tickDevice] <;> split_ifs <;> simp

theorem get_path_congr (c c' : RotCtrl) (a e : ℚ)
    (h1 : c'.target = c.target) (h2 : c'.pass = c.pass) (h3 : c'.t = c.t)
    (h4 : c'.flipped = c.flipped) (h5 : c'.conf = c.conf) :
    gtk_rot_ctrl_get_path c' a e = gtk_rot_ctrl_get_path c a e := by
  unfold gtk_rot_ctrl_get_path
  rw [h1, h2, h3, h4, h5]

theorem tick_keeps_lastTrg (predict : ℚ → ℚ × ℚ) (gotlock : Bool) (c : RotCtrl)
    (htr : c.tracking = true) (hts : c.targetSet = true)
    (hls : c.lastTrgSet = true)
    (hin : is_within_threshold
        (gtk_rot_ctrl_smooth_az c (gtk_rot_ctrl_get_path c 0 0).2.1)
        (gtk_rot_ctrl_get_path c 0 0).2.2 c.lastTrgAz c.lastTrgEl
        c.threshold = true) :
    (rot_ctrl_timeout_cb predict gotlock c).lastTrgAz = c.lastTrgAz ∧
    (rot_ctrl_timeout_cb predict gotlock c).lastTrgEl = c.lastTrgEl ∧
    (rot_ctrl_timeout_cb predict gotlock c).lastTrgSet = true := by
  unfold rot_ctrl_timeout_cb
  simp only [htr, hts, Bool.and_self, Bool.not_true, Bool.false_eq_true,
    if_false]
  by_cases hr : (gtk_rot_ctrl_get_path c 0 0).1 = true <;>
    simp [hr, hls, hin, tickDevice] <;> split_ifs <;> simp [hls]

/-- C5: threshold gating is idempotent.  If the controller is tracking, a
previously commanded target exists (`lastTrgSet`), and that target lies within
the threshold disk of the current smoothed live path point, then every control
tick — and hence any number of repeated ticks under unchanged inputs — leaves
`lastTrgAz` and `lastTrgEl` unchanged: no oscillation. -/
theorem tick_threshold_gating_idempotent (predict : ℚ → ℚ × ℚ) (gotlock : Bool)
    (c : RotCtrl)
    (htr : c.tracking = true) (hts : c.targetSet = true)
    (hls : c.lastTrgSet = true)
    (hin : is_within_threshold
        (gtk_rot_ctrl_smooth_az c (gtk_rot_ctrl_get_path c 0 0).2.1)
        (gtk_rot_ctrl_get_path c 0 0).2.2 c.lastTrgAz c.lastTrgEl
        c.threshold = true) :
    ∀ n : ℕ,
      ((rot_ctrl_timeout_cb predict gotlock)^[n] c).lastTrgAz = c.lastTrgAz ∧
      ((rot_ctrl_timeout_cb predict gotlock)^[n] c).lastTrgEl = c.lastTrgEl := by
  have key : ∀ n : ℕ,
      ((rot_ctrl_timeout_cb predict gotlock)^[n] c).lastTrgAz = c.lastTrgAz ∧
      ((rot_ctrl_timeout_cb predict gotlock)^[n] c).lastTrgEl = c.lastTrgEl ∧
      ((rot_ctrl_timeout_cb predict gotlock)^[n] c).lastTrgSet = true ∧
      ((rot_ctrl_timeout_cb predict gotlock)^[n] c).target = c.target ∧
      ((rot_ctrl_timeout_cb predict gotlock)^[n] c).targetSet = c.targetSet ∧
      ((rot_ctrl_timeout_cb predict gotlock)^[n] c).pass = c.pass ∧
      ((rot_ctrl_timeout_cb predict gotlock)^[n] c).t = c.t ∧
      ((rot_ctrl_timeout_cb predict gotlock)^[n] c).flipped = c.flipped ∧
      ((rot_ctrl_timeout_cb predict gotlock)^[n] c).conf = c.conf ∧
      ((rot_ctrl_timeout_cb predict gotlock)^[n] c).tracking = c.tracking ∧
      ((rot_ctrl_timeout_cb predict gotlock)^[n] c).threshold = c.threshold := by
    intro n
    induction n with
    | zero => simp [hls]
    | succ n ih =>
      obtain ⟨iAz, iEl, iSet, iTg, iTs, iPs, iT, iFl, iCf, iTr, iTh⟩ := ih
      set cn := (rot_ctrl_timeout_cb predict gotlock)^[n] c with hcn
      have hpath : gtk_rot_ctrl_get_path cn 0 0 = gtk_rot_ctrl_get_path c 0 0 :=
        get_path_congr c cn 0 0 iTg iPs iT iFl iCf
      have hsm : ∀ x, gtk_rot_ctrl_smooth_az cn x = gtk_rot_ctrl_smooth_az c x := by
        intro x
        unfold gtk_rot_ctrl_smooth_az
        rw [iSet, hls, iAz]
      have hinn : is_within_threshold
          (gtk_rot_ctrl_smooth_az cn (gtk_rot_ctrl_get_path cn 0 0).2.1)
          (gtk_rot_ctrl_get_path cn 0 0).2.2 cn.lastTrgAz cn.lastTrgEl
          cn.threshold = true := by
        rw [hpath, hsm, iAz, iEl, iTh]
        exact hin
      have hstep := tick_keeps_lastTrg predict gotlock cn
        (iTr.trans htr) (iTs.trans hts) iSet hinn
      have hpres := tick_preserves predict gotlock cn
      rw [Function.iterate_succ_apply']
      refine ⟨hstep.1.trans iAz, hstep.2.1.trans iEl, hstep.2.2, ?_⟩
      rw [← hcn]
      exact ⟨hpres.1.trans iTg, hpres.2.1.trans iTs, hpres.2.2.1.trans iPs,
        hpres.2.2.2.2.1.trans iT, hpres.2.2.2.2.2.1.trans iFl,
        hpres.2.2.2.1.trans iCf, hpres.2.2.2.2.2.2.1.trans iTr,
        hpres.2.2.2.2.2.2.2.trans iTh⟩
  intro n
  exact ⟨(key n).1, (key n).2.1⟩

/-- C5 witness: two ticks on the concrete in-threshold state `ctrlW5` leave the
commanded target untouched. -/
theorem tick_threshold_gating_idempotent_witness :
    ctrlW5.tracking = true ∧ ctrlW5.lastTrgSet = true ∧
    is_within_threshold
      (gtk_rot_ctrl_smooth_az ctrlW5 (gtk_rot_ctrl_get_path ctrlW5 0 0).2.1)
      (gtk_rot_ctrl_get_path ctrlW5 0 0).2.2 ctrlW5.lastTrgAz ctrlW5.lastTrgEl
      ctrlW5.threshold = true ∧
    ((rot_ctrl_timeout_cb predictW1 true)^[2] ctrlW5).lastTrgAz =
      ctrlW5.lastTrgAz ∧
    ((rot_ctrl_timeout_cb predictW1 true)^[2] ctrlW5).lastTrgEl =
      ctrlW5.lastTrgEl :=
  ⟨rfl, rfl,
    by
      norm_num [ctrlW5, gtk_rot_ctrl_get_path, gtk_rot_ctrl_smooth_az,
        gtk_rot_ctrl_smooth, is_within_threshold, gtk_rot_ctrl_ring_absdiff],
    (tick_threshold_gating_idempotent predictW1 true ctrlW5 rfl rfl rfl
      (by
        norm_num [ctrlW5, gtk_rot_ctrl_get_path, gtk_rot_ctrl_smooth_az,
          gtk_rot_ctrl_smooth, is_within_threshold,
          gtk_rot_ctrl_ring_absdiff]) 2).1,
    (tick_threshold_gating_idempotent predictW1 true ctrlW5 rfl rfl rfl
      (by
        norm_num [ctrlW5, gtk_rot_ctrl_get_path, gtk_rot_ctrl_smooth_az,
          gtk_rot_ctrl_smooth, is_within_threshold,
          gtk_rot_ctrl_ring_absdiff]) 2).2⟩

theorem bigJump_cons_cons (a b : ℚ) (r : List ℚ) :
    bigJump (a :: b :: r) = (decide (|b - a| > 180) || bigJump (b :: r)) := rfl

theorem flipFold (mn mx : ℚ) (l : List ℚ) (b : Bool) (last : ℚ) :
    (l.foldl (flipStep mn mx) (b, last)).1 =
      (b || bigJump (last :: l.map (unwrapRange mn mx))) ∧
    (l.foldl (flipStep mn mx) (b, last)).2 =
      (l.map (unwrapRange mn mx)).getLastD last := by
  induction l generalizing b last with
  | nil => simp [bigJump]
  | cons x xs ih =>
    simp only [List.foldl_cons, List.map_cons]
    obtain ⟨h1, h2⟩ := ih (b || decide (|unwrapRange mn mx x - last| > 180))
      (unwrapRange mn mx x)
    refine ⟨?_, ?_⟩
    · rw [show flipStep mn mx (b, last) x =
        (b || decide (|unwrapRange mn mx x - last| > 180),
          unwrapRange mn mx x) from rfl, h1, bigJump_cons_cons, Bool.or_assoc]
    · rw [show flipStep mn mx (b, last) x =
        (b || decide (|unwrapRange mn mx x - last| > 180),
          unwrapRange mn mx x) from rfl, h2, List.getLastD_cons]

theorem bigJump_append_last (m : List ℚ) (last x : ℚ) :
    bigJump (last :: (m ++ [x])) =
      (bigJump (last :: m) || decide (|x - m.getLastD last| > 180)) := by
  induction m generalizing last with
  | nil => simp [bigJump]
  | cons y ys ih =>
    rw [List.cons_append, bigJump_cons_cons, ih y, bigJump_cons_cons,
      List.getLastD_cons, Bool.or_assoc]

theorem flip_walk (mn mx : ℚ) (l : List ℚ) (a z : ℚ) :
    ((l.foldl (flipStep mn mx) (false, unwrapRange mn mx a)).1 ||
      decide (|unwrapRange mn mx z -
        (l.foldl (flipStep mn mx) (false, unwrapRange mn mx a)).2| > 180)) =
    bigJump ((a :: (l ++ [z])).map (unwrapRange mn mx)) := by
  obtain ⟨h1, h2⟩ := flipFold mn mx l false (unwrapRange mn mx a)
  rw [h1, h2]
  simp only [List.map_cons, List.map_append, List.map_singleton, List.map_nil]
  rw [bigJump_append_last]
  simp

/-- C3 (amended): `is_flipped_pass` returns true iff, after unwrapping onto the
configured wrap range shifted by the stop offset, some two consecutive entries
of the ordered sequence consisting of the AOS azimuth, the detail samples with
the first and the last skipped (the C loop walks indices `1 .. num-2`), and the
LOS azimuth differ by more than 180 degrees. -/
theorem is_flipped_pass_eq_bigJump (p : Pass) (ty : RotAzType) (stop : ℚ) :
    is_flipped_pass p ty stop =
      bigJump ((codeSeq p).map
        (unwrapRange (flipMinAz ty stop) (flipMaxAz ty stop))) := by
  unfold is_flipped_pass codeSeq
  by_cases h : p.details.length > 1
  · simp only [if_pos h]
    rw [flip_walk]
    simp
  · simp only [if_neg h]
    have hdrop : p.details.drop 1 = [] := List.drop_eq_nil_of_le (by omega)
    rw [hdrop]
    simp [bigJump]

/-- C3 counterexample: for `passC3` (AOS azimuth 0, detail samples 190 and 0,
LOS azimuth 10, 0-360 wrap, stop offset 0) the code reports NOT flipped, while
the claim's walk over the AOS azimuth, ALL detail samples and the LOS azimuth
sees the jumps 0→190→0 and reports flipped. -/
theorem is_flipped_pass_full_walk_cex :
    is_flipped_pass passC3 .az360 0 = false ∧
    bigJump ((claimSeq passC3).map
      (unwrapRange (flipMinAz .az360 0) (flipMaxAz .az360 0))) = true := by
  constructor <;>
    norm_num [is_flipped_pass, flipStep, unwrapRange, addTurnsWhileLt,
      subTurnsWhileGt, addTurnsAux, subTurnsAux, addTurnsFuel, subTurnsFuel,
      flipMinAz, flipMaxAz, azLimits, passC3, ceil_as_floor, bigJump, claimSeq]

/-- C7 (amended): a position-read exchange reports failure exactly when the
transport fails, the reply begins with `RPRT` (any code, zero included), or the
reply does not split into at least two newline-separated fields; in all other
cases it reports success and yields the strtod conversions of the first two
fields — conversion is never checked, so non-numeric fields yield 0 rather
than a failure. -/
theorem get_pos_spec (transport : Option (List Char)) :
    (get_pos transport = none ↔
      (transport = none ∨ ∃ reply, transport = some reply ∧
        ("RPRT".data <+: reply ∨ (g_strsplit_nl 3 reply).length < 2))) ∧
    (∀ reply v0 v1 rest, transport = some reply →
      ¬"RPRT".data <+: reply →
      g_strsplit_nl 3 reply = v0 :: v1 :: rest →
      get_pos transport = some (g_strtod v0, g_strtod v1)) := by
  cases transport with
  | none => simp [get_pos]
  | some reply =>
    constructor
    · by_cases hp : "RPRT".data <+: reply
      · simp [get_pos, List.isPrefixOf_iff_prefix.mpr hp, hp]
      · have hp' : ("RPRT".data).isPrefixOf reply = false := by
          rw [Bool.eq_false_iff]
          intro hc
          exact hp (List.isPrefixOf_iff_prefix.mp hc)
        rcases hs : g_strsplit_nl 3 reply with _ | ⟨v0, _ | ⟨v1, rest⟩⟩ <;>
          simp [get_pos, hp, hp', hs]
    · intro r v0 v1 rest hr hp hs
      have hre : r = reply := by injection hr.symm
      subst hre
      have hp' : ("RPRT".data).isPrefixOf r = false := by
        rw [Bool.eq_false_iff]
        intro hc
        exact hp (List.isPrefixOf_iff_prefix.mp hc)
      simp [get_pos, hp', hs]

/-- C7 witness: the characterization applied to the well-formed reply
`"2\n4.5\n"`, which parses to azimuth 2 and elevation 4.5. -/
theorem get_pos_spec_witness :
    ¬"RPRT".data <+: ("2\n4.5\n".data) ∧
    g_strsplit_nl 3 ("2\n4.5\n".data) = [['2'], ['4', '.', '5'], ([] : List Char)] ∧
    get_pos (some ("2\n4.5\n".data)) =
      some (g_strtod ['2'], g_strtod ['4', '.', '5']) ∧
    g_strtod ['2'] = 2 ∧ g_strtod ['4', '.', '5'] = 9 / 2 := by
  refine ⟨by decide, by decide, ?_, ?_, ?_⟩
  · exact (get_pos_spec (some ("2\n4.5\n".data))).2
      ("2\n4.5\n".data) ['2'] ['4', '.', '5'] [([] : List Char)] rfl
      (by decide) (by decide)
  · have h1 : strtodParts ['2'] = (false, 2, 0, 0) := by decide
    norm_num [g_strtod, h1]
  · have h2 : strtodParts ['4', '.', '5'] = (false, 4, 5, 1) := by decide
    norm_num [g_strtod, h2]

/-- C7 counterexample: the reply `"abc\ndef\n"` splits into the two fields
`"abc"` and `"def"`, neither of which parses as a floating value, yet
`get_pos` reports success with azimuth 0 and elevation 0 — the claim says
such a reply is a failure. -/
theorem get_pos_parse_cex :
    get_pos (some ("abc\ndef\n".data)) = some (0, 0) ∧
    g_strsplit_nl 3 ("abc\ndef\n".data) = [['a','b','c'], ['d','e','f'], ([] : List Char)] ∧
    parses_as_float ['a','b','c'] = false ∧
    parses_as_float ['d','e','f'] = false := by
  refine ⟨?_, by decide, by decide, by decide⟩
  have hs : g_strsplit_nl 3 ("abc\ndef\n".data) =
    [['a','b','c'], ['d','e','f'], ([] : List Char)] := by decide
  have hpre : ("RPRT".data).isPrefixOf ("abc\ndef\n".data) = false := by decide
  have h1 : strtodParts ['a','b','c'] = (false, 0, 0, 0) := by decide
  have h2 : strtodParts ['d','e','f'] = (false, 0, 0, 0) := by decide
  norm_num [get_pos, hs, hpre, h1, h2, g_strtod]

theorem future_loop_accept_within (predict : ℚ → ℚ × ℚ) (doflip : Bool)
    (pthaz pthel threshold t bound : ℚ) :
    ∀ (fuel : Nat) (td step az el : ℚ) (acc : Bool),
      (acc = true → is_within_threshold pthaz pthel az el threshold = true) →
      (future_loop predict doflip pthaz pthel threshold t bound
          fuel td step az el acc).2.2.2 = true →
      is_within_threshold pthaz pthel
        (future_loop predict doflip pthaz pthel threshold t bound
          fuel td step az el acc).2.1
        (future_loop predict doflip pthaz pthel threshold t bound
          fuel td step az el acc).2.2.1 threshold = true := by
  intro fuel
  induction fuel with
  | zero =>
    intro td step az el acc hinv
    simpa [future_loop] using hinv
  | succ n ih =>
    intro td step az el acc hinv
    rw [future_loop]
    by_cases hc : step > bound
    · simp only [if_pos hc]
      apply ih
      intro hok
      have := hok
      simp only [Bool.and_eq_true] at this
      exact this.2
    · simp only [if_neg hc]
      exact hinv

/-- C1 (amended): whenever the final bisection iteration of the future-target
search accepts its tested point — in particular whenever the search converges —
the returned target lies within the configured threshold disk of the supplied
path point.  Every increment of the accepted elapsed time comes from a point
that passed the threshold test; when the final test rejects, the function
returns that last computed estimate, which may lie outside the disk (the
source comments and the spec's error-handling section both accept this
"return last estimate" behaviour). -/
theorem calc_future_target_within_when_accepted (predict : ℚ → ℚ × ℚ)
    (ctrl : RotCtrl) (pthaz pthel : ℚ)
    (hacc : (futureSearch predict ctrl pthaz pthel).2.2.2 = true) :
    is_within_threshold pthaz pthel
      (gtk_rot_ctrl_calc_future_target predict ctrl pthaz pthel).1
      (gtk_rot_ctrl_calc_future_target predict ctrl pthaz pthel).2
      ctrl.threshold = true := by
  unfold gtk_rot_ctrl_calc_future_target
  exact future_loop_accept_within _ _ _ _ _ _ _ _ _ _ _ _ _
    (fun h => by cases h) hacc

/-- C1 witness: with the propagator pinned to the path point (10, 45), every
bisection test of the search from `ctrlC1` accepts and the returned target is
within threshold. -/
theorem calc_future_target_within_when_accepted_witness :
    (futureSearch predictW1 ctrlC1 10 45).2.2.2 = true ∧
    is_within_threshold 10 45
      (gtk_rot_ctrl_calc_future_target predictW1 ctrlC1 10 45).1
      (gtk_rot_ctrl_calc_future_target predictW1 ctrlC1 10 45).2
      ctrlC1.threshold = true :=
  ⟨by
    have h4 : (Int.toNat 4 : ℕ) = 4 := rfl
    norm_num [futureSearch, future_loop, futurePoint, predictW1, ctrlC1,
      init_step, quarter_delay, secday, numHalvings, numHalvingsAux,
      is_within_threshold, gtk_rot_ctrl_ring_absdiff, ceil_as_floor, h4,
      Nat.log2],
    calc_future_target_within_when_accepted predictW1 ctrlC1 10 45
      (by
        have h4 : (Int.toNat 4 : ℕ) = 4 := rfl
        norm_num [futureSearch, future_loop, futurePoint, predictW1, ctrlC1,
          init_step, quarter_delay, secday, numHalvings, numHalvingsAux,
          is_within_threshold, gtk_rot_ctrl_ring_absdiff, ceil_as_floor, h4,
          Nat.log2])⟩

/-- C1 counterexample: the propagator `predictC1` keeps the flip-corrected
elevation at 45 (inside [0, 180]) over the whole horizon and the target above
the horizon, yet from `ctrlC1` the search returns (180, 45), which is 180°
away from the supplied path point (0, 45) — far outside the 5° threshold, so
the claim's convergence guarantee fails as stated. -/
theorem calc_future_target_outside_threshold_cex :
    gtk_rot_ctrl_calc_future_target predictC1 ctrlC1 0 45 = (180, 45) ∧
    is_within_threshold 0 45 180 45 ctrlC1.threshold = false ∧
    (fun d => (predictC1 d).2) = (fun _ => (45 : ℚ)) ∧
    ctrlC1.target.el > 0 ∧ ctrlC1.flipped = false ∧ 0 < ctrlC1.threshold := by
  refine ⟨?_, ?_, rfl, by norm_num [ctrlC1], rfl, by norm_num [ctrlC1]⟩
  · have h4 : (Int.toNat 4 : ℕ) = 4 := rfl
    norm_num [gtk_rot_ctrl_calc_future_target, futureSearch, future_loop,
      futurePoint, predictC1, ctrlC1, init_step, quarter_delay, secday,
      numHalvings, numHalvingsAux, is_within_threshold,
      gtk_rot_ctrl_ring_absdiff, ceil_as_floor, h4, Nat.log2]
  · norm_num [is_within_threshold, gtk_rot_ctrl_ring_absdiff, ctrlC1]

theorem future_loop_stable (predict : ℚ → ℚ × ℚ) (doflip : Bool)
    (pthaz pthel threshold t bound : ℚ) :
    ∀ (n m : Nat) (td step az el : ℚ) (acc : Bool), step ≤ bound * 2 ^ n →
      future_loop predict doflip pthaz pthel threshold t bound
          (n + m) td step az el acc =
        future_loop predict doflip pthaz pthel threshold t bound
          n td step az el acc := by
  intro n
  induction n with
  | zero =>
    intro m td step az el acc hstep
    rw [pow_zero, mul_one] at hstep
    cases m with
    | zero => rfl
    | succ m' =>
      rw [show 0 + (m' + 1) = m' + 1 from by omega, future_loop, future_loop,
        if_neg (not_lt.mpr hstep)]
  | succ n ih =>
    intro m td step az el acc hstep
    rw [show n + 1 + m = (n + m) + 1 from by omega, future_loop, future_loop]
    by_cases hc : step > bound
    · simp only [if_pos hc]
      apply ih
      rw [pow_succ] at hstep
      linarith
    · simp only [if_neg hc]

theorem numHalvingsAux_le (bound : ℚ) :
    ∀ (fuel : Nat) (step : ℚ) (n : Nat), step ≤ bound * 2 ^ n →
      numHalvingsAux fuel step bound ≤ n := by
  intro fuel
  induction fuel with
  | zero => intro step n hstep; simp [numHalvingsAux]
  | succ f ih =>
    intro step n hstep
    rw [numHalvingsAux]
    by_cases hc : step > bound
    · simp only [if_pos hc]
      cases n with
      | zero => rw [pow_zero, mul_one] at hstep; linarith
      | succ n' =>
        have h2 : step / 2 ≤ bound * 2 ^ n' := by
          rw [pow_succ] at hstep; linarith
        have := ih (step / 2) n' h2
        omega
    · simp [if_neg hc]

theorem numHalvingsAux_spec (bound : ℚ) (hb : 0 < bound) :
    ∀ (fuel : Nat) (step : ℚ), step ≤ bound * 2 ^ fuel →
      step ≤ bound * 2 ^ numHalvingsAux fuel step bound := by
  intro fuel
  induction fuel with
  | zero => intro step h; simpa [numHalvingsAux] using h
  | succ f ih =>
    intro step hstep
    rw [numHalvingsAux]
    by_cases hc : step > bound
    · simp only [if_pos hc]
      have h2 : step / 2 ≤ bound * 2 ^ f := by
        rw [pow_succ] at hstep; linarith
      have := ih (step / 2) h2
      rw [pow_succ]
      linarith
    · simp only [if_neg hc, pow_zero, mul_one]
      linarith

theorem step_le_pow_fuel (step bound : ℚ) (hb : 0 < bound) :
    step ≤ bound * 2 ^ ((⌈step / bound⌉.toNat).log2 + 1) := by
  by_cases h : step ≤ bound
  · have h1 : (1 : ℚ) ≤ 2 ^ ((⌈step / bound⌉.toNat).log2 + 1) :=
      one_le_pow₀ (by norm_num)
    nlinarith
  · push_neg at h
    have hx : step / bound ≤ ((⌈step / bound⌉.toNat : ℤ) : ℚ) := by
      have h1 := Int.le_ceil (step / bound)
      have h2 : (⌈step / bound⌉ : ℚ) ≤ ((⌈step / bound⌉.toNat : ℤ) : ℚ) := by
        exact_mod_cast Int.self_le_toNat _
      linarith
    have hp : ((⌈step / bound⌉.toNat : ℤ) : ℚ) ≤
        2 ^ ((⌈step / bound⌉.toNat).log2 + 1) := by
      have := (Nat.lt_log2_self (n := ⌈step / bound⌉.toNat)).le
      exact_mod_cast this
    have hfin : step / bound ≤ 2 ^ ((⌈step / bound⌉.toNat).log2 + 1) :=
      hx.trans hp
    calc step = bound * (step / bound) := by field_simp
      _ ≤ bound * 2 ^ ((⌈step / bound⌉.toNat).log2 + 1) :=
        mul_le_mul_of_nonneg_left hfin hb.le

theorem numHalvings_spec (step bound : ℚ) (hb : 0 < bound) :
    step ≤ bound * 2 ^ numHalvings step bound :=
  numHalvingsAux_spec bound hb _ step (step_le_pow_fuel step bound hb)

/-- C6 (amended): for every positive cycle delay the search loop terminates —
its fuel `numHalvings` is exact: adding any extra fuel leaves the result of
`futureSearch` unchanged — and the number of iterations is bounded by the
number of halvings from the initial step down to a quarter of the cycle delay
(any `n` with `step ≤ (delay/4) · 2^n` bounds it).  The initial step is half
the time to LOS (or half a 20-minute horizon), but raised to the FULL cycle
delay when smaller — not half a cycle delay as the claim states. -/
theorem future_search_terminates (predict : ℚ → ℚ × ℚ) (ctrl : RotCtrl)
    (pthaz pthel : ℚ) (hd : 0 < ctrl.delay) :
    (∀ m : ℕ, future_loop predict (ctrl.flipped && decide (ctrl.conf.maxel ≥ 180))
        pthaz pthel ctrl.threshold ctrl.t (quarter_delay ctrl.delay)
        (numHalvings (init_step ctrl.pass ctrl.t ctrl.delay)
          (quarter_delay ctrl.delay) + m)
        0 (init_step ctrl.pass ctrl.t ctrl.delay) ctrl.target.az
        ctrl.target.el false =
      futureSearch predict ctrl pthaz pthel) ∧
    (∀ n : ℕ, init_step ctrl.pass ctrl.t ctrl.delay ≤
        quarter_delay ctrl.delay * 2 ^ n →
      numHalvings (init_step ctrl.pass ctrl.t ctrl.delay)
        (quarter_delay ctrl.delay) ≤ n) ∧
    init_step ctrl.pass ctrl.t ctrl.delay =
      max ((match ctrl.pass with
            | some p => p.los - ctrl.t
            | none => (1 : ℚ) / 72) / 2)
        (ctrl.delay / 1000 / secday) := by
  have hb : 0 < quarter_delay ctrl.delay := by
    unfold quarter_delay secday
    positivity
  refine ⟨?_, ?_, ?_⟩
  · intro m
    unfold futureSearch
    exact future_loop_stable predict _ pthaz pthel ctrl.threshold ctrl.t _
      (numHalvings (init_step ctrl.pass ctrl.t ctrl.delay)
        (quarter_delay ctrl.delay)) m 0 _ ctrl.target.az ctrl.target.el false
      (numHalvings_spec _ _ hb)
  · intro n h
    exact numHalvingsAux_le _ _ _ n h
  · unfold init_step
    rcases ctrl.pass with _ | p <;>
      · simp only []
        split_ifs with h <;> rw [max_def] <;> split_ifs <;> linarith

/-- C6 witness: the termination theorem applied with the concrete 1000 ms
delay; for a 20-minute horizon with no cached pass (`ctrlC1` with the pass
dropped) the loop runs exactly 12 ≤ 20 iterations. -/
theorem future_search_terminates_witness :
    (0 : ℚ) < ctrlC1.delay ∧
    future_loop predictW1
        (ctrlC1.flipped && decide (ctrlC1.conf.maxel ≥ 180)) 10 45
        ctrlC1.threshold ctrlC1.t (quarter_delay ctrlC1.delay)
        (numHalvings (init_step ctrlC1.pass ctrlC1.t ctrlC1.delay)
          (quarter_delay ctrlC1.delay) + 1)
        0 (init_step ctrlC1.pass ctrlC1.t ctrlC1.delay) ctrlC1.target.az
        ctrlC1.target.el false =
      futureSearch predictW1 ctrlC1 10 45 ∧
    numHalvings (init_step none 0 1000) (quarter_delay 1000) = 12 ∧
    (12 : ℕ) ≤ 20 :=
  ⟨by norm_num [ctrlC1],
    (future_search_terminates predictW1 ctrlC1 10 45 (by norm_num [ctrlC1])).1 1,
    by
      have hinit : init_step none 0 1000 = 1 / 144 := by
        norm_num [init_step, secday]
      have hq : quarter_delay 1000 = 1 / 345600 := by
        norm_num [quarter_delay, secday]
      rw [hinit, hq]
      have hceil : (⌈((1 : ℚ) / 144) / (1 / 345600)⌉).toNat = 2400 := by
        (norm_num [ceil_as_floor]); rfl
      have hlog : (2400 : ℕ).log2 = 11 := by norm_num [Nat.log2]
      rw [numHalvings, hceil, hlog]
      norm_num [numHalvingsAux],
    by norm_num⟩

/-- C6 counterexample: with LOS at the current time and a 1000 ms delay the
initial step is the full cycle delay 1000/1000/secday = 1/86400 day, not half
of it as the claim's `max(..., half a tick period)` would give. -/
theorem init_step_full_tick_cex :
    init_step (some passC6) 0 1000 = 1000 / 1000 / secday ∧
    init_step (some passC6) 0 1000 ≠ 1000 / 1000 / secday / 2 := by
  constructor <;> norm_num [init_step, passC6, secday]

theorem candFold_le (cminaz cmaxaz mn mx : ℚ) :
    ∀ (l : List ℚ) (acc : ℚ × ℚ),
      (l.foldl (candStep cminaz cmaxaz mn mx) acc).2 ≤ acc.2 ∧
      (∀ x ∈ l, candPasses cminaz cmaxaz mn mx x →
        (l.foldl (candStep cminaz cmaxaz mn mx) acc).2 ≤
          candStretch mn mx x) := by
  intro l
  induction l with
  | nil => intro acc; exact ⟨le_refl _, by simp⟩
  | cons y ys ih =>
    intro acc
    simp only [List.foldl_cons]
    obtain ⟨ihA, ihB⟩ := ih (candStep cminaz cmaxaz mn mx acc y)
    have hstep : (candStep cminaz cmaxaz mn mx acc y).2 ≤ acc.2 ∧
        (candPasses cminaz cmaxaz mn mx y →
          (candStep cminaz cmaxaz mn mx acc y).2 ≤ candStretch mn mx y) := by
      simp only [candStep, candPasses, candStretch]
      split_ifs with h1 h2
      · exact ⟨le_of_lt h2, fun _ => le_refl _⟩
      · exact ⟨le_refl _, fun _ => not_lt.mp h2⟩
      · exact ⟨le_refl _, fun h => absurd h h1⟩
    refine ⟨ihA.trans hstep.1, ?_⟩
    intro x hx hpx
    rcases List.mem_cons.mp hx with rfl | hmem
    · exact ihA.trans (hstep.2 hpx)
    · exact ihB x hmem hpx

theorem candFold_mem (cminaz cmaxaz mn mx : ℚ) :
    ∀ (l : List ℚ) (acc : ℚ × ℚ),
      l.foldl (candStep cminaz cmaxaz mn mx) acc = acc ∨
      ((l.foldl (candStep cminaz cmaxaz mn mx) acc).1 ∈ l ∧
        candPasses cminaz cmaxaz mn mx
          (l.foldl (candStep cminaz cmaxaz mn mx) acc).1 ∧
        candStretch mn mx (l.foldl (candStep cminaz cmaxaz mn mx) acc).1 =
          (l.foldl (candStep cminaz cmaxaz mn mx) acc).2 ∧
        (l.foldl (candStep cminaz cmaxaz mn mx) acc).2 < acc.2) := by
  intro l
  induction l with
  | nil => intro acc; exact Or.inl rfl
  | cons y ys ih =>
    intro acc
    simp only [List.foldl_cons]
    have hcase : candStep cminaz cmaxaz mn mx acc y = acc ∨
        (candStep cminaz cmaxaz mn mx acc y = (y, candStretch mn mx y) ∧
          candPasses cminaz cmaxaz mn mx y ∧
          candStretch mn mx y < acc.2) := by
      simp only [candStep, candPasses, candStretch]
      split_ifs with h1 h2
      · exact Or.inr ⟨rfl, h1, h2⟩
      · exact Or.inl rfl
      · exact Or.inl rfl
    rcases ih (candStep cminaz cmaxaz mn mx acc y) with heq | hach
    · rw [heq]
      rcases hcase with h | ⟨h, hpy, hlt⟩
      · exact Or.inl h
      · rw [h]
        exact Or.inr ⟨List.mem_cons_self _ _, by simpa using hpy, rfl,
          by simpa using hlt⟩
    · obtain ⟨hmem, hpass, hsc, hlt⟩ := hach
      refine Or.inr ⟨List.mem_cons_of_mem _ hmem, hpass, hsc, ?_⟩
      have hstep : (candStep cminaz cmaxaz mn mx acc y).2 ≤ acc.2 := by
        simp only [candStep]
        split_ifs with h1 h2
        · exact le_of_lt h2
        · exact le_refl _
        · exact le_refl _
      exact lt_of_lt_of_le hlt hstep

/-- C4 (amended): with no cached pass `gtk_rot_ctrl_profile_az` returns 0.
With a cached pass it computes the shifted smooth-unwrapped envelope
`envAfterShift` and examines the candidate offsets −360, 0, +360: when no
candidate both fits strictly inside the azimuth limits AND has stretch below
the 10000 sentinel, it returns 0; otherwise it returns a candidate offset that
fits inside the limits and whose stretch is minimal among all fitting
candidates.  (The claim omits the sentinel: a fitting candidate whose stretch
is at least 10000 is never chosen.) -/
theorem profile_az_argmin (ctrl : RotCtrl) (sampleAz : ℚ) :
    (ctrl.pass = none → gtk_rot_ctrl_profile_az ctrl sampleAz = 0) ∧
    (∀ p, ctrl.pass = some p →
      ((∀ off ∈ ([-360, 0, 360] : List ℚ),
          ¬(candPasses ctrl.conf.minaz ctrl.conf.maxaz
              (envAfterShift p.details sampleAz).1
              (envAfterShift p.details sampleAz).2 off ∧
            candStretch (envAfterShift p.details sampleAz).1
              (envAfterShift p.details sampleAz).2 off < 10000)) →
        gtk_rot_ctrl_profile_az ctrl sampleAz = 0) ∧
      ((∃ off ∈ ([-360, 0, 360] : List ℚ),
          candPasses ctrl.conf.minaz ctrl.conf.maxaz
            (envAfterShift p.details sampleAz).1
            (envAfterShift p.details sampleAz).2 off ∧
          candStretch (envAfterShift p.details sampleAz).1
            (envAfterShift p.details sampleAz).2 off < 10000) →
        gtk_rot_ctrl_profile_az ctrl sampleAz ∈ ([-360, 0, 360] : List ℚ) ∧
        candPasses ctrl.conf.minaz ctrl.conf.maxaz
          (envAfterShift p.details sampleAz).1
          (envAfterShift p.details sampleAz).2
          (gtk_rot_ctrl_profile_az ctrl sampleAz) ∧
        (∀ off ∈ ([-360, 0, 360] : List ℚ),
          candPasses ctrl.conf.minaz ctrl.conf.maxaz
            (envAfterShift p.details sampleAz).1
            (envAfterShift p.details sampleAz).2 off →
          candStretch (envAfterShift p.details sampleAz).1
            (envAfterShift p.details sampleAz).2
            (gtk_rot_ctrl_profile_az ctrl sampleAz) ≤
          candStretch (envAfterShift p.details sampleAz).1
            (envAfterShift p.details sampleAz).2 off))) := by
  constructor
  · intro hp
    simp [gtk_rot_ctrl_profile_az, hp]
  · intro p hp
    have hprof : gtk_rot_ctrl_profile_az ctrl sampleAz =
        (([-360, 0, 360] : List ℚ).foldl
          (candStep ctrl.conf.minaz ctrl.conf.maxaz
            (envAfterShift p.details sampleAz).1
            (envAfterShift p.details sampleAz).2) (0, 10000)).1 := by
      simp [gtk_rot_ctrl_profile_az, hp, envAfterShift]
    set mn := (envAfterShift p.details sampleAz).1
    set mx := (envAfterShift p.details sampleAz).2
    set r := ([-360, 0, 360] : List ℚ).foldl
      (candStep ctrl.conf.minaz ctrl.conf.maxaz mn mx) (0, 10000) with hr
    constructor
    · intro hno
      rcases candFold_mem ctrl.conf.minaz ctrl.conf.maxaz mn mx
        [-360, 0, 360] (0, 10000) with heq | ⟨hmem, hpass, hsc, hlt⟩
      · rw [hprof, hr, heq]
      · exfalso
        rw [← hr] at hmem hpass hsc hlt
        exact hno r.1 hmem ⟨hpass, by rw [hsc]; simpa using hlt⟩
    · rintro ⟨off, hoffmem, hoffpass, hofflt⟩
      have hA := candFold_le ctrl.conf.minaz ctrl.conf.maxaz mn mx
        [-360, 0, 360] (0, 10000)
      have hr2lt : r.2 < 10000 :=
        lt_of_le_of_lt (hA.2 off hoffmem hoffpass) hofflt
      rcases candFold_mem ctrl.conf.minaz ctrl.conf.maxaz mn mx
        [-360, 0, 360] (0, 10000) with heq | ⟨hmem, hpass, hsc, hlt⟩
      · rw [hr, heq] at hr2lt
        norm_num at hr2lt
      · rw [← hr] at hmem hpass hsc
        rw [hprof]
        refine ⟨hmem, hpass, ?_⟩
        intro o homem hopass
        rw [hsc]
        have := hA.2 o homem hopass
        rw [← hr] at this
        exact this

/-- C4 witness: on `ctrlW4` (envelope [10, 20], limits (−180, 540)) the
offset-0 candidate is selectable and the profiler's result fits the limits
with minimal stretch. -/
theorem profile_az_argmin_witness :
    ctrlW4.pass = some ⟨0, 10, 10, 20, [⟨10⟩, ⟨20⟩]⟩ ∧
    (∃ off ∈ ([-360, 0, 360] : List ℚ),
      candPasses ctrlW4.conf.minaz ctrlW4.conf.maxaz
        (envAfterShift [⟨10⟩, ⟨20⟩] 15).1 (envAfterShift [⟨10⟩, ⟨20⟩] 15).2
        off ∧
      candStretch (envAfterShift [⟨10⟩, ⟨20⟩] 15).1
        (envAfterShift [⟨10⟩, ⟨20⟩] 15).2 off < 10000) ∧
    (gtk_rot_ctrl_profile_az ctrlW4 15 ∈ ([-360, 0, 360] : List ℚ) ∧
      candPasses ctrlW4.conf.minaz ctrlW4.conf.maxaz
        (envAfterShift [⟨10⟩, ⟨20⟩] 15).1 (envAfterShift [⟨10⟩, ⟨20⟩] 15).2
        (gtk_rot_ctrl_profile_az ctrlW4 15) ∧
      (∀ off ∈ ([-360, 0, 360] : List ℚ),
        candPasses ctrlW4.conf.minaz ctrlW4.conf.maxaz
          (envAfterShift [⟨10⟩, ⟨20⟩] 15).1 (envAfterShift [⟨10⟩, ⟨20⟩] 15).2
          off →
        candStretch (envAfterShift [⟨10⟩, ⟨20⟩] 15).1
          (envAfterShift [⟨10⟩, ⟨20⟩] 15).2
          (gtk_rot_ctrl_profile_az ctrlW4 15) ≤
        candStretch (envAfterShift [⟨10⟩, ⟨20⟩] 15).1
          (envAfterShift [⟨10⟩, ⟨20⟩] 15).2 off)) :=
  ⟨rfl,
    ⟨0, by norm_num, by
      norm_num [envAfterShift, envStep, envShiftDownAux, envShiftUpAux,
        candPasses, candStretch, gtk_rot_ctrl_smooth, ctrlW4, ctrlW5,
        ceil_as_floor]⟩,
    ((profile_az_argmin ctrlW4 15).2 _ rfl).2
      ⟨0, by norm_num, by
        norm_num [envAfterShift, envStep, envShiftDownAux, envShiftUpAux,
          candPasses, candStretch, gtk_rot_ctrl_smooth, ctrlW4, ctrlW5,
          ceil_as_floor]⟩⟩

/-- C4 counterexample: from `ctrlC4` at sample azimuth 10805 the shifted
envelope is [10810, 10820]; the −360 candidate fits the wide limits and has
the strictly smallest stretch among the three candidates, so the claim's
argmin is −360, yet the code returns 0 because every stretch exceeds the
10000 sentinel. -/
theorem profile_az_sentinel_cex :
    gtk_rot_ctrl_profile_az ctrlC4 10805 = 0 ∧
    envAfterShift [⟨10⟩, ⟨20⟩] 10805 = (10810, 10820) ∧
    candPasses ctrlC4.conf.minaz ctrlC4.conf.maxaz 10810 10820 (-360) ∧
    candStretch 10810 10820 (-360) < candStretch 10810 10820 0 ∧
    candStretch 10810 10820 (-360) < candStretch 10810 10820 360 ∧
    (-360 : ℚ) ≠ 0 := by
  refine ⟨?_, ?_, ?_, ?_, ?_, by norm_num⟩
  · norm_num [gtk_rot_ctrl_profile_az, ctrlC4, envAfterShift, envStep,
      envShiftDownAux, envShiftUpAux, candStep, gtk_rot_ctrl_smooth,
      ceil_as_floor]
  · norm_num [envAfterShift, envStep, envShiftDownAux, envShiftUpAux,
      gtk_rot_ctrl_smooth, ceil_as_floor]
  · norm_num [candPasses, ctrlC4]
  · norm_num [candStretch]
  · norm_num [candStretch]

theorem shared_new_trg_protocol (a : ClientAct) (s : SysState)
    (predict : ℚ → ℚ × ℚ) (g : Bool) :
    ((sysStep (ClientAct.ctick predict g) s).ctrl.client.new_trg =
      (s.ctrl.client.new_trg || (s.ctrl.engaged && s.ctrl.confSet && g))) ∧
    (s.ctrl.client.new_trg = true →
      (sysStep a s).ctrl.client.new_trg = false →
      (∃ pos posok, a = ClientAct.publish pos posok) ∧
        s.loc.new_trg = false) ∧
    (s.loc.new_trg = true → (sysStep a s).loc.new_trg = false →
      a = ClientAct.send true) := by
  refine ⟨?_, ?_, ?_⟩
  · obtain ⟨a', e', c1, heq, hclient, hconf⟩ :=
      rot_ctrl_timeout_cb_shape predict g s.ctrl
    simp only [sysStep, heq, tickDevice]
    rcases hb : (s.ctrl.engaged && s.ctrl.confSet) && g
    · simp [hb, hclient]
    · simp [hb]
  · intro htrue hfalse
    cases a with
    | ctick p gl =>
      obtain ⟨a', e', c1, heq, hclient, hconf⟩ :=
        rot_ctrl_timeout_cb_shape p gl s.ctrl
      rw [show sysStep (ClientAct.ctick p gl) s =
        { s with ctrl := rot_ctrl_timeout_cb p gl s.ctrl } from rfl] at hfalse
      simp only [heq, tickDevice] at hfalse
      rcases hb : (s.ctrl.engaged && s.ctrl.confSet) && gl
      · rw [hb] at hfalse
        simp only [Bool.false_eq_true, if_false] at hfalse
        have hf2 : s.ctrl.client.new_trg = false := by
          rw [← hclient]; exact hfalse
        rw [htrue] at hf2
        simp at hf2
      · rw [hb] at hfalse
        simp at hfalse
    | snap =>
      have hctrl : (sysStep ClientAct.snap s).ctrl = s.ctrl := by
        simp only [sysStep]
        split_ifs <;> rfl
      rw [hctrl, htrue] at hfalse
      simp at hfalse
    | send ok =>
      have hctrl : (sysStep (ClientAct.send ok) s).ctrl = s.ctrl := by
        simp only [sysStep]
        split_ifs <;> rfl
      rw [hctrl, htrue] at hfalse
      simp at hfalse
    | publish pos posok =>
      refine ⟨⟨pos, posok, rfl⟩, ?_⟩
      simp only [sysStep] at hfalse
      split_ifs at hfalse
      · exact hfalse
      · exact hfalse
  · intro htrue hfalse
    cases a with
    | ctick p gl =>
      have hf2 : s.loc.new_trg = false := hfalse
      rw [htrue] at hf2
      simp at hf2
    | snap =>
      simp only [sysStep] at hfalse
      split_ifs at hfalse with h
      · have hf2 : s.ctrl.client.new_trg = false := hfalse
        rw [h] at hf2
        simp at hf2
      · have hf2 : s.loc.new_trg = false := hfalse
        rw [htrue] at hf2
        simp at hf2
    | send ok =>
      simp only [sysStep] at hfalse
      split_ifs at hfalse with h1 h2
      · rw [h2]
      · have hf2 : s.loc.new_trg = false := hfalse
        rw [htrue] at hf2
        simp at hf2
      · have hf2 : s.loc.new_trg = false := hfalse
        rw [htrue] at hf2
        simp at hf2
    | publish pos posok =>
      simp only [sysStep] at hfalse
      split_ifs at hfalse <;>
        · have hf2 : s.loc.new_trg = false := hfalse
          rw [htrue] at hf2
          simp at hf2

/-- C9 witness: the protocol theorem applied to the concrete interleaved run
`sysC9queued` and the client's publish-back step. -/
theorem shared_new_trg_protocol_witness :
    sysC9queued.ctrl.client.new_trg = true ∧
    (sysStep (ClientAct.publish (0, 0) true) sysC9queued).ctrl.client.new_trg
      = false ∧
    ((∃ pos posok,
        ClientAct.publish ((0 : ℚ), (0 : ℚ)) true =
          ClientAct.publish pos posok) ∧
      sysC9queued.loc.new_trg = false) :=
  ⟨by
    norm_num [sysC9queued, sysC9, sysRun, sysStep, rot_ctrl_timeout_cb,
      tickDevice, CLAMP],
    by
      norm_num [sysC9queued, sysC9, sysRun, sysStep, rot_ctrl_timeout_cb,
        tickDevice, CLAMP],
    (shared_new_trg_protocol (ClientAct.publish (0, 0) true) sysC9queued
      predictW1 true).2.1
      (by
        norm_num [sysC9queued, sysC9, sysRun, sysStep, rot_ctrl_timeout_cb,
          tickDevice, CLAMP])
      (by
        norm_num [sysC9queued, sysC9, sysRun, sysStep, rot_ctrl_timeout_cb,
          tickDevice, CLAMP])⟩

/-- C9 counterexample: in the interleaving "tick queues, client snapshots,
client sends successfully, tick queues again, client publishes back", the
target queued by the second tick is pending in `sysC9queued` but no longer
pending after the publish-back, although no position command was sent in
between (the successful-send log is unchanged) — the claim's conclusion that
a queued target stays pending until the device client successfully sends it
fails. -/
theorem pending_command_lost_cex :
    sysC9queued.ctrl.client.new_trg = true ∧
    sysC9final.ctrl.client.new_trg = false ∧
    sysC9final.loc.sent = sysC9queued.loc.sent := by
  refine ⟨?_, ?_, ?_⟩ <;>
    norm_num [sysC9final, sysC9queued, sysC9, sysRun, sysStep,
      rot_ctrl_timeout_cb, tickDevice, CLAMP]
